import Mathlib

/-!
# Bus-space address translation of the mipsco port

A shallow embedding of `sys/arch/mipsco/mipsco/bus_space.c` and the properties of its
routines.  Machine integers are natural numbers (or integers for the signed `off_t`)
with the reduction modulo the word made explicit at every operation.  A routine that
returns an `int` and writes through an output pointer is a function into `Outcome`,
which records whether the routine returned at all, what it returned and what it stored.
-/

namespace MipscoBusSpace

/-! ## Machine arithmetic -/

/-- Modelled from the spec: the integer types `bus_addr_t`, `bus_size_t`,
`bus_space_handle_t`, `paddr_t` and `vaddr_t` are declared in `<machine/bus.h>` and
`<mips/types.h>`, which are not part of `bus_space.c`.  The port is the classic 32-bit
MIPS layout of section 1, so all of them are unsigned 32-bit words: `WORD = 2 ^ 32`. -/
def WORD : Nat := 4294967296

/-- Unsigned 32-bit addition, `a + b` on `u_long`. -/
def add32 (a b : Nat) : Nat := (a + b) % WORD

/-- Unsigned 32-bit subtraction, `a - b` on `u_long` (wraps below zero). -/
def sub32 (a b : Nat) : Nat := (a + (WORD - b % WORD)) % WORD

/-- Unsigned 32-bit left shift, `a << s` on `u_long`.  C leaves a shift by 32 or more
undefined; the embedding takes the value of the unbounded shift reduced to the word. -/
def shl32 (a s : Nat) : Nat := (a <<< s) % WORD

/-- Reduction of an integer to the signed 64-bit range of `off_t`.  C leaves signed
overflow undefined; the embedding takes the two's complement value the hardware
produces.  Inside the range the value is unchanged. -/
def wrap_s64 (x : Int) : Int := (x + 9223372036854775808) % 18446744073709551616 - 9223372036854775808

/-- The conversion `(paddr_t)x` of a 64-bit signed value to the unsigned 32-bit word. -/
def to_paddr (x : Int) : Nat := (x % 4294967296).toNat

/-! ## Constants and macros of the platform headers -/

/-- Modelled from the spec: `MIPS_KSEG0_START` of `<mips/cpuregs.h>` (not under the
sources read here), the start of the cached direct-mapped segment of the classic MIPS
layout. -/
def MIPS_KSEG0_START : Nat := 0x80000000

/-- Modelled from the spec: `MIPS_KSEG1_START` of `<mips/cpuregs.h>`, the start of the
uncached direct-mapped segment. -/
def MIPS_KSEG1_START : Nat := 0xa0000000

/-- Modelled from the spec: `MIPS_KSEG2_START` of `<mips/cpuregs.h>`, the start of the
TLB-mapped segment. -/
def MIPS_KSEG2_START : Nat := 0xc0000000

/-- Modelled from the spec: `MIPS_PHYS_MASK` of `<mips/cpuregs.h>`, the 512 MB window of
physical addresses reachable through the direct-mapped segments. -/
def MIPS_PHYS_MASK : Nat := 0x1fffffff

/-- Modelled from the spec: the macro `MIPS_KSEG0_TO_PHYS(x)` of `<mips/cpuregs.h>`,
`(x) & MIPS_PHYS_MASK`: the inverse of the cached direct mapping. -/
def MIPS_KSEG0_TO_PHYS (x : Nat) : Nat := x &&& MIPS_PHYS_MASK

/-- Modelled from the spec: the macro `MIPS_KSEG1_TO_PHYS(x)` of `<mips/cpuregs.h>`,
`(x) & MIPS_PHYS_MASK`: the inverse of the uncached direct mapping. -/
def MIPS_KSEG1_TO_PHYS (x : Nat) : Nat := x &&& MIPS_PHYS_MASK

/-- Modelled from the spec: the macro `MIPS_PHYS_TO_KSEG0(x)` of `<mips/cpuregs.h>`,
`(x) | MIPS_KSEG0_START`: a physical address re-expressed in the cached direct-mapped
segment. -/
def MIPS_PHYS_TO_KSEG0 (x : Nat) : Nat := x ||| MIPS_KSEG0_START

/-- Modelled from the spec: `PGSHIFT` of `<mips/mips_param.h>`, log2 of the platform
page size (4 KB pages). -/
def PGSHIFT : Nat := 12

/-- Modelled from the spec: the macro `mips_btop(x)` of `<mips/mips_param.h>`,
`((paddr_t)(x) >> PGSHIFT)`: the page frame number of a physical address. -/
def mips_btop (x : Int) : Nat := to_paddr x >>> PGSHIFT

/-- Modelled from the spec: the flag `BUS_SPACE_MAP_CACHEABLE` of `<machine/bus.h>`. -/
def BUS_SPACE_MAP_CACHEABLE : Nat := 0x01

/-- Modelled from the spec: the flag `BUS_SPACE_MAP_LINEAR` of `<machine/bus.h>`. -/
def BUS_SPACE_MAP_LINEAR : Nat := 0x02

/-- Modelled from the spec: the flag `BUS_SPACE_MAP_PREFETCHABLE` of `<machine/bus.h>`. -/
def BUS_SPACE_MAP_PREFETCHABLE : Nat := 0x04

/-- Modelled from the spec: the error number `EINVAL` of `<sys/errno.h>`, the
invalid-argument condition. -/
def EINVAL : Int := 22

/-- The value `(paddr_t)-1` that `mipsco_bus_space_mmap` returns by `return (-1)`. -/
def PADDR_MINUS_ONE : Nat := to_paddr (-1)

/-! ## Data model -/

/-- Modelled from the spec: `struct mipsco_bus_space` of `<machine/bus.h>` (section 3 of
the specification), restricted to its data fields.  The operation pointers `bs_map`,
`bs_compose_handle`, ... and the unused `bs_spare` and `bs_aux` are bound once by
`mipsco_bus_space_init` to the routines below and to `NULL`, and are never written
again; calls through them are calls of those routines. -/
structure mipsco_bus_space where
  bs_name : String
  bs_start : Nat
  bs_size : Nat
  bs_pbase : Nat
  bs_vbase : Nat
  bs_stride : Nat
  bs_bswap : Nat
  bs_offset_1 : Nat
  bs_offset_2 : Nat
  bs_offset_4 : Nat
  bs_offset_8 : Nat
deriving DecidableEq, Repr

/-- The result of a call of a routine that returns an `int` status and may store one
word through its output pointer: either the call reached `panic()` and never returned,
or it returned `status`, having stored `stored` (`none`: the pointer was not written). -/
inductive Outcome where
  | panicked : Outcome
  | ret (status : Int) (stored : Option Nat) : Outcome
deriving DecidableEq, Repr

/-! ## The routines of `bus_space.c` -/

/-- `mipsco_bus_space_set_aligned_stride(bst, shift)`, lines 67-82.  The declared width
of the field `bs_stride` is in `<machine/bus.h>`, not in this file; the assignment of
line 71 is taken as it is written, storing the value of `shift`. -/
def mipsco_bus_space_set_aligned_stride (bst : mipsco_bus_space) (shift : Nat) :
    mipsco_bus_space :=
  let bst1 := { bst with bs_stride := shift }
  let bst2 :=
    if shift = 2 then { bst1 with bs_offset_1 := 3, bs_offset_2 := 2 }
    else { bst1 with bs_offset_1 := 0, bs_offset_2 := 0 }
  { bst2 with bs_offset_4 := 0, bs_offset_8 := 0 }

/-- `mipsco_bus_space_init(bst, name, paddr, vaddr, start, size)`, lines 44-65. -/
def mipsco_bus_space_init (bst : mipsco_bus_space) (name : String)
    (paddr vaddr start size : Nat) : mipsco_bus_space :=
  let bst1 := { bst with
    bs_name := name, bs_start := start, bs_size := size,
    bs_pbase := paddr, bs_vbase := vaddr, bs_bswap := 0 }
  mipsco_bus_space_set_aligned_stride bst1 0

/-- `mipsco_bus_space_compose_handle(bst, addr, size, flags, bshp)`, lines 84-118.
`flags` is the bit pattern of the `int` argument. -/
def mipsco_bus_space_compose_handle (bst : mipsco_bus_space) (addr _size flags : Nat) :
    Outcome :=
  let bsh := add32 bst.bs_vbase (shl32 (sub32 addr bst.bs_start) bst.bs_stride)
  if flags &&& BUS_SPACE_MAP_CACHEABLE = 0 then
    Outcome.ret 0 (some bsh)
  else if bsh < MIPS_KSEG1_START then
    Outcome.panicked
  else if bsh < MIPS_KSEG2_START then
    Outcome.ret 0 (some (MIPS_PHYS_TO_KSEG0 (MIPS_KSEG1_TO_PHYS bsh)))
  else
    Outcome.ret 0 (some bsh)

/-- `mipsco_bus_space_dispose_handle(bst, bsh, size)`, lines 120-124. -/
def mipsco_bus_space_dispose_handle (_bst : mipsco_bus_space) (_bsh _size : Nat) : Int := 0

/-- `mipsco_bus_space_paddr(bst, bsh, pap)`, lines 126-143. -/
def mipsco_bus_space_paddr (bst : mipsco_bus_space) (bsh : Nat) : Outcome :=
  if bsh < MIPS_KSEG0_START then
    Outcome.panicked
  else if bsh < MIPS_KSEG1_START then
    Outcome.ret 0 (some (MIPS_KSEG0_TO_PHYS bsh))
  else if bsh < MIPS_KSEG2_START then
    Outcome.ret 0 (some (MIPS_KSEG1_TO_PHYS bsh))
  else
    Outcome.ret 0 (some (add32 bst.bs_pbase (sub32 bsh bst.bs_vbase)))

/-- Modelled from the spec: the macro `bus_space_compose_handle` of `<machine/bus.h>`,
the call through `bst->bs_compose_handle`, which `mipsco_bus_space_init` binds to
`mipsco_bus_space_compose_handle` (line 53). -/
def bus_space_compose_handle (bst : mipsco_bus_space) (addr size flags : Nat) : Outcome :=
  mipsco_bus_space_compose_handle bst addr size flags

/-- Modelled from the spec: the macro `bus_space_dispose_handle` of `<machine/bus.h>`,
the call through `bst->bs_dispose_handle`, bound to `mipsco_bus_space_dispose_handle`
(line 54). -/
def bus_space_dispose_handle (bst : mipsco_bus_space) (bsh size : Nat) : Int :=
  mipsco_bus_space_dispose_handle bst bsh size

/-- `mipsco_bus_space_map(bst, addr, size, flags, bshp)`, lines 145-153. -/
def mipsco_bus_space_map (bst : mipsco_bus_space) (addr size flags : Nat) : Outcome :=
  if addr < bst.bs_start ∨ add32 addr size > add32 bst.bs_start bst.bs_size then
    Outcome.ret EINVAL none
  else
    bus_space_compose_handle bst addr size flags

/-- `mipsco_bus_space_unmap(bst, bsh, size)`, lines 155-159: the status of the disposal
is dropped. -/
def mipsco_bus_space_unmap (bst : mipsco_bus_space) (bsh size : Nat) : Unit :=
  let _ := bus_space_dispose_handle bst bsh size
  ()

/-- `mipsco_bus_space_subregion(bst, bsh, offset, size, nbshp)`, lines 161-166. -/
def mipsco_bus_space_subregion (bst : mipsco_bus_space) (bsh offset _size : Nat) : Outcome :=
  Outcome.ret 0 (some (add32 bsh (shl32 offset bst.bs_stride)))

/-- `mipsco_bus_space_mmap(bst, addr, off, prot, flags)`, lines 168-182.  `off` is the
signed 64-bit `off_t`: `addr + off` and the final sum are formed in signed 64-bit
arithmetic after the 32-bit operands are widened, `bs_start + bs_size` and
`bs_pbase + (addr - bs_start)` in unsigned 32-bit arithmetic. -/
def mipsco_bus_space_mmap (bst : mipsco_bus_space) (addr : Nat) (off : Int)
    (_prot _flags : Nat) : Nat :=
  if addr < bst.bs_start ∨
      wrap_s64 ((addr : Int) + off) ≥ ((add32 bst.bs_start bst.bs_size : Nat) : Int) then
    PADDR_MINUS_ONE
  else
    mips_btop (wrap_s64 (((add32 bst.bs_pbase (sub32 addr bst.bs_start) : Nat) : Int) + off))

/-- `mipsco_bus_space_alloc(...)`, lines 184-189: not implemented, always fatal. -/
def mipsco_bus_space_alloc (_bst : mipsco_bus_space)
    (_start _end _size _align _boundary _flags : Nat) : Outcome :=
  Outcome.panicked

/-! ## The operations as transformers of the descriptor -/

/-- One call of an operation of the bus-space capability set on a descriptor, with its
arguments. -/
inductive bus_op where
  | map (addr size flags : Nat) : bus_op
  | unmap (bsh size : Nat) : bus_op
  | compose_handle (addr size flags : Nat) : bus_op
  | dispose_handle (bsh size : Nat) : bus_op
  | paddr (bsh : Nat) : bus_op
  | subregion (bsh offset size : Nat) : bus_op
  | mmap (addr : Nat) (off : Int) (prot flags : Nat) : bus_op
  | set_aligned_stride (shift : Nat) : bus_op
deriving DecidableEq, Repr

/-- What a call hands back to its caller: the outcome of a routine with an output
pointer, the `int` of `dispose_handle`, the `paddr_t` of `mmap`, or nothing (`void`). -/
inductive op_result where
  | outcome (o : Outcome) : op_result
  | status (r : Int) : op_result
  | frame (pfn : Nat) : op_result
  | void : op_result
deriving DecidableEq, Repr

/-- The descriptor after a call, and what the call hands back.  The descriptor is passed
by pointer; of the eight routines only `mipsco_bus_space_set_aligned_stride` assigns
through `bst` (lines 71-81), the others only read it, and their output pointers are
storage of the caller, apart from the descriptor. -/
def run_op (bst : mipsco_bus_space) : bus_op → mipsco_bus_space × op_result
  | bus_op.map addr size flags =>
      (bst, op_result.outcome (mipsco_bus_space_map bst addr size flags))
  | bus_op.unmap bsh size =>
      let _ := mipsco_bus_space_unmap bst bsh size
      (bst, op_result.void)
  | bus_op.compose_handle addr size flags =>
      (bst, op_result.outcome (mipsco_bus_space_compose_handle bst addr size flags))
  | bus_op.dispose_handle bsh size =>
      (bst, op_result.status (mipsco_bus_space_dispose_handle bst bsh size))
  | bus_op.paddr bsh =>
      (bst, op_result.outcome (mipsco_bus_space_paddr bst bsh))
  | bus_op.subregion bsh offset size =>
      (bst, op_result.outcome (mipsco_bus_space_subregion bst bsh offset size))
  | bus_op.mmap addr off prot flags =>
      (bst, op_result.frame (mipsco_bus_space_mmap bst addr off prot flags))
  | bus_op.set_aligned_stride shift =>
      (mipsco_bus_space_set_aligned_stride bst shift, op_result.void)

/-! ## Sample descriptors -/

/-- A descriptor before initialisation: every field zero. -/
def blank : mipsco_bus_space :=
  { bs_name := "", bs_start := 0, bs_size := 0, bs_pbase := 0, bs_vbase := 0,
    bs_stride := 0, bs_bswap := 0, bs_offset_1 := 0, bs_offset_2 := 0,
    bs_offset_4 := 0, bs_offset_8 := 0 }

/-- An onboard I/O bus: a 4 KB aperture at bus address 0, physical base `0x18000000`,
reached through the uncached direct-mapped segment at `0xb8000000`. -/
def obio : mipsco_bus_space :=
  mipsco_bus_space_init blank "obio" 0x18000000 0xb8000000 0 0x1000

/-- The same bus with registers spaced four bytes apart (`shift = 2`). -/
def obio4 : mipsco_bus_space := mipsco_bus_space_set_aligned_stride obio 2

/-- A bus window mapped through the TLB-mapped segment at `0xc0100000`. -/
def vme : mipsco_bus_space :=
  mipsco_bus_space_init blank "vme" 0x30000000 0xc0100000 0x2000 0x10000

/-- A bus whose virtual base lies in the cached direct-mapped segment. -/
def cachedbus : mipsco_bus_space :=
  mipsco_bus_space_init blank "cached" 0x00100000 0x80100000 0 0x1000

/-! ## Facts about the machine arithmetic and the segment macros -/

/-- Masking with `MIPS_PHYS_MASK` is reduction modulo the 512 MB window, `2 ^ 29`. -/
theorem phys_mask_eq_mod (x : Nat) : x &&& MIPS_PHYS_MASK = x % 536870912 := by
  have h := Nat.and_pow_two_sub_one_eq_mod x 29
  norm_num at h
  unfold MIPS_PHYS_MASK
  exact h

/-- On a physical address inside the window, `MIPS_PHYS_TO_KSEG0` adds the segment base. -/
theorem phys_to_kseg0_eq_add (x : Nat) (hx : x < 536870912) :
    MIPS_PHYS_TO_KSEG0 x = 2147483648 + x := by
  unfold MIPS_PHYS_TO_KSEG0 MIPS_KSEG0_START
  have hx2 : x < 2 ^ 31 := by omega
  have h := Nat.mul_add_lt_is_or hx2 1
  rw [Nat.or_comm]
  norm_num at h
  omega

/-! ## `mipsco_bus_space_map`: the range check -/

/-- C1: for every descriptor, every bus address `addr` with
`bs_start <= addr < bs_start + bs_size`, every `size` with
`addr + size <= bs_start + bs_size` where the sums do not wrap around the machine word,
and every `flags` without `BUS_SPACE_MAP_CACHEABLE`, `mipsco_bus_space_map` returns 0
and stores the handle `bs_vbase + ((addr - bs_start) << bs_stride)`, computed in
machine-word arithmetic. -/
theorem C1_map_in_range_stores_linear_handle (d : mipsco_bus_space) (addr size flags : Nat)
    (hlo : d.bs_start ≤ addr) (hhi : addr < d.bs_start + d.bs_size)
    (hend : addr + size ≤ d.bs_start + d.bs_size)
    (hnowrap : d.bs_start + d.bs_size < WORD)
    (hflags : flags &&& BUS_SPACE_MAP_CACHEABLE = 0) :
    mipsco_bus_space_map d addr size flags =
      Outcome.ret 0 (some (add32 d.bs_vbase (shl32 (sub32 addr d.bs_start) d.bs_stride))) := by
  have hcheck : ¬ (addr < d.bs_start ∨ add32 addr size > add32 d.bs_start d.bs_size) := by
    unfold add32 WORD
    unfold WORD at hnowrap
    omega
  unfold mipsco_bus_space_map bus_space_compose_handle mipsco_bus_space_compose_handle
  rw [if_neg hcheck]
  simp only [hflags, if_true]

/-- C1, at a concrete request: sixteen bytes at bus address `0x10` of `obio`. -/
theorem C1_map_in_range_stores_linear_handle_witness :
    mipsco_bus_space_map obio 0x10 0x10 0 = Outcome.ret 0 (some 0xb8000010) :=
  C1_map_in_range_stores_linear_handle obio 0x10 0x10 0
    (by decide) (by decide) (by decide) (by decide) (by decide)

/-- C2, as stated, fails: the empty request at the end of the aperture of `obio`
(`addr = bs_start + bs_size = 0x1000`, `size = 0`) is outside `[bs_start, bs_start + bs_size)`,
yet the range check passes and the handle is composed and stored. -/
theorem C2_map_end_of_aperture_accepted :
    ¬ (obio.bs_start ≤ 0x1000 ∧ 0x1000 < obio.bs_start + obio.bs_size) ∧
    mipsco_bus_space_map obio 0x1000 0 0 = Outcome.ret 0 (some 0xb8001000) ∧
    mipsco_bus_space_map obio 0x1000 0 0 ≠ Outcome.ret EINVAL none := by
  decide

/-- C2, amended: for every descriptor, every `flags`, and every request whose bus address
is below `bs_start`, or is at or above `bs_start + bs_size` with an end `addr + size`
that does not wrap around the machine word, `mipsco_bus_space_map` returns `EINVAL` and
leaves the output handle unwritten, except for the empty request at the end of the
aperture (`addr = bs_start + bs_size`, `size = 0`), which is handed to handle
composition. -/
theorem C2_map_out_of_range_einval (d : mipsco_bus_space) (addr size flags : Nat)
    (hout : addr < d.bs_start ∨ (d.bs_start + d.bs_size ≤ addr ∧ addr + size < WORD)) :
    mipsco_bus_space_map d addr size flags =
      if addr = d.bs_start + d.bs_size ∧ size = 0 then
        mipsco_bus_space_compose_handle d addr size flags
      else Outcome.ret EINVAL none := by
  unfold mipsco_bus_space_map bus_space_compose_handle
  by_cases hempty : addr = d.bs_start + d.bs_size ∧ size = 0
  · have hcheck : ¬ (addr < d.bs_start ∨ add32 addr size > add32 d.bs_start d.bs_size) := by
      unfold add32 WORD
      unfold WORD at hout
      omega
    rw [if_neg hcheck, if_pos hempty]
  · have hcheck : addr < d.bs_start ∨ add32 addr size > add32 d.bs_start d.bs_size := by
      unfold add32 WORD
      unfold WORD at hout
      omega
    rw [if_pos hcheck, if_neg hempty]

/-- C2, amended, at a concrete request: one byte just past the aperture of `obio`. -/
theorem C2_map_out_of_range_einval_witness :
    mipsco_bus_space_map obio 0x1000 1 0 = Outcome.ret EINVAL none :=
  C2_map_out_of_range_einval obio 0x1000 1 0 (Or.inr (by decide))

/-- C3: the code at the failing input.  On `obio` (aperture `[0, 0x1000)`) the request
`addr = 0xfffffff0`, `size = 0x20` ends at `0x100000010`, far outside the aperture, but the
32-bit sum `addr + size` wraps to `0x10`, the range check passes, and the call returns 0
with a handle below the virtual base of the bus. -/
theorem C3_map_accepts_wrapped_range :
    mipsco_bus_space_map obio 0xfffffff0 0x20 0 = Outcome.ret 0 (some 0xb7fffff0) ∧
    ¬ (0xfffffff0 + 0x20 ≤ obio.bs_start + obio.bs_size) := by
  decide

/-! ## `mipsco_bus_space_mmap` -/

/-- A `paddr_t` is a 32-bit word. -/
theorem to_paddr_lt (x : Int) : to_paddr x < 4294967296 := by
  unfold to_paddr
  omega

/-- Truncation to `paddr_t` forgets the reduction to the signed 64-bit range. -/
theorem to_paddr_wrap_s64 (x : Int) : to_paddr (wrap_s64 x) = to_paddr x := by
  unfold to_paddr wrap_s64
  congr 1
  omega

/-- The page frame number is the physical address divided by the 4 KB page size. -/
theorem mips_btop_eq_div (x : Int) : mips_btop x = to_paddr x / 4096 := by
  unfold mips_btop PGSHIFT
  rw [Nat.shiftRight_eq_div_pow]

/-- A page frame number has at most 20 bits, so it is never `(paddr_t)-1`. -/
theorem mips_btop_ne_minus_one (x : Int) : mips_btop x ≠ PADDR_MINUS_ONE := by
  have h1 := to_paddr_lt x
  have h2 : PADDR_MINUS_ONE = 4294967295 := by decide
  rw [mips_btop_eq_div, h2]
  omega

/-- C4: for every descriptor, bus address `addr` and offset `off`,
`mipsco_bus_space_mmap` returns the sentinel `(paddr_t)-1` exactly when `addr < bs_start`
or `addr + off >= bs_start + bs_size` (the sums as the routine forms them:
`bs_start + bs_size` in the 32-bit word, `addr + off` in the signed 64-bit `off_t`); in
every other case it returns the physical address `bs_pbase + (addr - bs_start) + off`,
as a `paddr_t`, divided by the page size `2 ^ PGSHIFT`.  Whenever the two sums of the
test do not wrap, the test is the same comparison on unbounded integers. -/
theorem C4_mmap_sentinel_iff_else_page_frame (d : mipsco_bus_space) (addr : Nat) (off : Int)
    (prot flags : Nat) :
    (mipsco_bus_space_mmap d addr off prot flags = PADDR_MINUS_ONE ↔
      (addr < d.bs_start ∨
        ((add32 d.bs_start d.bs_size : Nat) : Int) ≤ wrap_s64 ((addr : Int) + off))) ∧
    (mipsco_bus_space_mmap d addr off prot flags =
      if addr < d.bs_start ∨
          ((add32 d.bs_start d.bs_size : Nat) : Int) ≤ wrap_s64 ((addr : Int) + off) then
        PADDR_MINUS_ONE
      else
        to_paddr (((add32 d.bs_pbase (sub32 addr d.bs_start) : Nat) : Int) + off)
          / 2 ^ PGSHIFT) ∧
    (d.bs_start + d.bs_size < WORD →
      -9223372036854775808 ≤ (addr : Int) + off → (addr : Int) + off < 9223372036854775808 →
      (mipsco_bus_space_mmap d addr off prot flags = PADDR_MINUS_ONE ↔
        (addr < d.bs_start ∨ (d.bs_start : Int) + (d.bs_size : Int) ≤ (addr : Int) + off))) := by
  have hiff : mipsco_bus_space_mmap d addr off prot flags = PADDR_MINUS_ONE ↔
      (addr < d.bs_start ∨
        ((add32 d.bs_start d.bs_size : Nat) : Int) ≤ wrap_s64 ((addr : Int) + off)) := by
    unfold mipsco_bus_space_mmap
    constructor
    · intro h
      by_contra hc
      rw [if_neg hc] at h
      exact mips_btop_ne_minus_one _ h
    · intro hc
      rw [if_pos hc]
  refine ⟨hiff, ?_, ?_⟩
  · unfold mipsco_bus_space_mmap
    by_cases hc : addr < d.bs_start ∨
        ((add32 d.bs_start d.bs_size : Nat) : Int) ≤ wrap_s64 ((addr : Int) + off)
    · rw [if_pos hc, if_pos hc]
    · rw [if_neg hc, if_neg hc, mips_btop_eq_div, to_paddr_wrap_s64]
      rfl
  · intro hw hlo hhi
    rw [hiff]
    have e1 : ((add32 d.bs_start d.bs_size : Nat) : Int) = (d.bs_start : Int) + (d.bs_size : Int) := by
      unfold add32
      unfold WORD at *
      omega
    have e2 : wrap_s64 ((addr : Int) + off) = (addr : Int) + off := by
      unfold wrap_s64
      omega
    rw [e1, e2]

/-- C4, at a concrete request: offset `0x234` from bus address `0x100` of `obio` lies in
the aperture and is in page frame `0x18000` (physical address `0x18000334`). -/
theorem C4_mmap_sentinel_iff_else_page_frame_witness :
    mipsco_bus_space_mmap obio 0x100 0x234 0 0 = 0x18000 ∧
    (mipsco_bus_space_mmap obio 0x100 0x234 0 0 = PADDR_MINUS_ONE ↔
      ((0x100 : Nat) < obio.bs_start ∨
        (obio.bs_start : Int) + (obio.bs_size : Int) ≤ ((0x100 : Nat) : Int) + 0x234)) :=
  ⟨by decide,
   (C4_mmap_sentinel_iff_else_page_frame obio 0x100 0x234 0 0).2.2
     (by decide) (by decide) (by decide)⟩

/-! ## `mipsco_bus_space_compose_handle` and `mipsco_bus_space_paddr` -/

/-- C5, as stated, fails in two ways.  With registers spaced four bytes apart (`obio4`,
stride 2) the handle of bus address 1 is `0xb8000004`, in the uncached direct-mapped
segment, and its physical address is `0x18000004`, not `bs_pbase + (addr - bs_start)`
`= 0x18000001`.  With stride 0, a handle that runs from the cached into the uncached
direct-mapped segment (`cachedbus`, bus address `0x1ff00000`, handle `0xa0000000`) has
physical address 0, not `0x20000000`: the direct-mapped window is 512 MB wide. -/
theorem C5_paddr_is_not_unscaled_offset :
    (MIPS_KSEG1_START ≤ obio4.bs_vbase ∧ obio4.bs_vbase < MIPS_KSEG2_START ∧
      obio4.bs_pbase = MIPS_KSEG1_TO_PHYS obio4.bs_vbase ∧
      mipsco_bus_space_compose_handle obio4 1 1 0 = Outcome.ret 0 (some 0xb8000004) ∧
      MIPS_KSEG1_START ≤ 0xb8000004 ∧ 0xb8000004 < MIPS_KSEG2_START ∧
      mipsco_bus_space_paddr obio4 0xb8000004 = Outcome.ret 0 (some 0x18000004) ∧
      add32 obio4.bs_pbase (sub32 1 obio4.bs_start) = 0x18000001 ∧
      mipsco_bus_space_paddr obio4 0xb8000004 ≠
        Outcome.ret 0 (some (add32 obio4.bs_pbase (sub32 1 obio4.bs_start)))) ∧
    (MIPS_KSEG0_START ≤ cachedbus.bs_vbase ∧ cachedbus.bs_vbase < MIPS_KSEG1_START ∧
      cachedbus.bs_pbase = MIPS_KSEG0_TO_PHYS cachedbus.bs_vbase ∧
      mipsco_bus_space_compose_handle cachedbus 0x1ff00000 1 0
        = Outcome.ret 0 (some 0xa0000000) ∧
      MIPS_KSEG1_START ≤ 0xa0000000 ∧ 0xa0000000 < MIPS_KSEG2_START ∧
      mipsco_bus_space_paddr cachedbus 0xa0000000 = Outcome.ret 0 (some 0) ∧
      add32 cachedbus.bs_pbase (sub32 0x1ff00000 cachedbus.bs_start) = 0x20000000 ∧
      mipsco_bus_space_paddr cachedbus 0xa0000000 ≠
        Outcome.ret 0 (some (add32 cachedbus.bs_pbase (sub32 0x1ff00000 cachedbus.bs_start)))) := by
  decide

/-- C5, amended: for every descriptor whose `bs_vbase` lies in the cached or the
uncached direct-mapped segment with `bs_pbase` the physical address it maps, every
stride, bus address and flags, if `mipsco_bus_space_compose_handle` returns 0 with a
handle in the cached or uncached direct-mapped segment, then `mipsco_bus_space_paddr` on
that handle returns 0 and yields `bs_pbase + ((addr - bs_start) << bs_stride)` reduced
to the 512 MB direct-mapped window (`& MIPS_PHYS_MASK`).  That is the sum itself
whenever the sum stays inside the window, and it is `bs_pbase + (addr - bs_start)` when
moreover the stride is 0. -/
theorem C5_paddr_inverts_compose_scaled (d : mipsco_bus_space) (addr size flags h : Nat)
    (hbase : (MIPS_KSEG0_START ≤ d.bs_vbase ∧ d.bs_vbase < MIPS_KSEG1_START ∧
                d.bs_pbase = MIPS_KSEG0_TO_PHYS d.bs_vbase) ∨
             (MIPS_KSEG1_START ≤ d.bs_vbase ∧ d.bs_vbase < MIPS_KSEG2_START ∧
                d.bs_pbase = MIPS_KSEG1_TO_PHYS d.bs_vbase))
    (hcompose : mipsco_bus_space_compose_handle d addr size flags = Outcome.ret 0 (some h))
    (hseg : MIPS_KSEG0_START ≤ h ∧ h < MIPS_KSEG2_START) :
    mipsco_bus_space_paddr d h =
        Outcome.ret 0 (some
          (add32 d.bs_pbase (shl32 (sub32 addr d.bs_start) d.bs_stride) &&& MIPS_PHYS_MASK)) ∧
    (d.bs_pbase + shl32 (sub32 addr d.bs_start) d.bs_stride ≤ MIPS_PHYS_MASK →
      mipsco_bus_space_paddr d h =
        Outcome.ret 0 (some (d.bs_pbase + shl32 (sub32 addr d.bs_start) d.bs_stride))) ∧
    (d.bs_stride = 0 → d.bs_start ≤ addr → addr < WORD →
      d.bs_pbase + (addr - d.bs_start) ≤ MIPS_PHYS_MASK →
      mipsco_bus_space_paddr d h = Outcome.ret 0 (some (d.bs_pbase + (addr - d.bs_start)))) := by
  -- the scaled offset, an opaque word for the arithmetic below
  have hoff : shl32 (sub32 addr d.bs_start) d.bs_stride < 4294967296 := by
    unfold shl32 WORD
    omega
  generalize hg : shl32 (sub32 addr d.bs_start) d.bs_stride = o at *
  -- the physical base is the virtual base modulo the window
  have hp : d.bs_pbase = d.bs_vbase % 536870912 ∧ 2147483648 ≤ d.bs_vbase ∧
      d.bs_vbase < 3221225472 := by
    unfold MIPS_KSEG0_TO_PHYS MIPS_KSEG1_TO_PHYS MIPS_KSEG0_START MIPS_KSEG1_START
      MIPS_KSEG2_START at hbase
    rw [phys_mask_eq_mod] at hbase
    omega
  -- the handle agrees with the candidate address modulo the window
  have hh : h % 536870912 = (d.bs_vbase + o) % 4294967296 % 536870912 := by
    unfold mipsco_bus_space_compose_handle at hcompose
    simp only [hg] at hcompose
    unfold add32 WORD at hcompose
    unfold MIPS_KSEG0_START MIPS_KSEG2_START at hseg
    split_ifs at hcompose with h1 h2 h3
    · injection hcompose with _ hst
      injection hst with hst
      rw [← hst]
    · unfold MIPS_KSEG1_TO_PHYS at hcompose
      rw [phys_mask_eq_mod] at hcompose
      rw [phys_to_kseg0_eq_add _ (by omega)] at hcompose
      injection hcompose with _ hst
      injection hst with hst
      omega
    · unfold MIPS_KSEG2_START at h3
      injection hcompose with _ hst
      injection hst with hst
      omega
  have hpa : mipsco_bus_space_paddr d h = Outcome.ret 0 (some (h % 536870912)) := by
    unfold mipsco_bus_space_paddr
    rw [if_neg (by omega)]
    unfold MIPS_KSEG0_TO_PHYS MIPS_KSEG1_TO_PHYS
    rw [phys_mask_eq_mod]
    split_ifs <;> first | rfl | omega
  have hmain : h % 536870912 = (d.bs_pbase + o) % 4294967296 % 536870912 := by omega
  refine ⟨?_, ?_, ?_⟩
  · rw [hpa, phys_mask_eq_mod, hmain]
    rfl
  · intro hwin
    unfold MIPS_PHYS_MASK at hwin
    rw [hpa]
    have : h % 536870912 = d.bs_pbase + o := by omega
    rw [this]
  · intro hs0 hle hlt hwin
    unfold MIPS_PHYS_MASK at hwin
    unfold WORD at hlt
    have ho : o = addr - d.bs_start := by
      rw [← hg, hs0]
      unfold shl32 sub32 WORD
      rw [Nat.shiftLeft_zero]
      omega
    rw [hpa]
    have : h % 536870912 = d.bs_pbase + (addr - d.bs_start) := by omega
    rw [this]

/-- C5, amended, at concrete requests: register 1 of `obio4` (stride 2) and byte `0x10`
of `obio` (stride 0). -/
theorem C5_paddr_inverts_compose_scaled_witness :
    mipsco_bus_space_paddr obio4 0xb8000004 = Outcome.ret 0 (some 0x18000004) ∧
    mipsco_bus_space_paddr obio 0xb8000010 = Outcome.ret 0 (some (0x18000000 + (0x10 - 0))) :=
  ⟨(C5_paddr_inverts_compose_scaled obio4 1 1 0 0xb8000004
      (Or.inr (by decide)) (by decide) (by decide)).2.1 (by decide),
   (C5_paddr_inverts_compose_scaled obio 0x10 1 0 0xb8000010
      (Or.inr (by decide)) (by decide) (by decide)).2.2
      (by decide) (by decide) (by decide) (by decide)⟩

/-- C6: for every descriptor, `addr` and `flags` containing `BUS_SPACE_MAP_CACHEABLE`
such that the candidate address `c = bs_vbase + ((addr - bs_start) << bs_stride)`
satisfies `MIPS_KSEG1_START <= c < MIPS_KSEG2_START`, `mipsco_bus_space_compose_handle`
returns 0 and stores `MIPS_PHYS_TO_KSEG0(MIPS_KSEG1_TO_PHYS(c))`, and that handle lies in
the cached direct-mapped segment `[MIPS_KSEG0_START, MIPS_KSEG1_START)`. -/
theorem C6_compose_cacheable_kseg1_gives_kseg0 (d : mipsco_bus_space) (addr size flags : Nat)
    (hflags : flags &&& BUS_SPACE_MAP_CACHEABLE ≠ 0)
    (hlo : MIPS_KSEG1_START ≤ add32 d.bs_vbase (shl32 (sub32 addr d.bs_start) d.bs_stride))
    (hhi : add32 d.bs_vbase (shl32 (sub32 addr d.bs_start) d.bs_stride) < MIPS_KSEG2_START) :
    mipsco_bus_space_compose_handle d addr size flags =
        Outcome.ret 0 (some (MIPS_PHYS_TO_KSEG0 (MIPS_KSEG1_TO_PHYS
          (add32 d.bs_vbase (shl32 (sub32 addr d.bs_start) d.bs_stride))))) ∧
    MIPS_KSEG0_START ≤ MIPS_PHYS_TO_KSEG0 (MIPS_KSEG1_TO_PHYS
          (add32 d.bs_vbase (shl32 (sub32 addr d.bs_start) d.bs_stride))) ∧
    MIPS_PHYS_TO_KSEG0 (MIPS_KSEG1_TO_PHYS
          (add32 d.bs_vbase (shl32 (sub32 addr d.bs_start) d.bs_stride))) < MIPS_KSEG1_START := by
  refine ⟨?_, ?_, ?_⟩
  · unfold mipsco_bus_space_compose_handle
    rw [if_neg hflags, if_neg (by omega), if_pos hhi]
  · generalize add32 d.bs_vbase (shl32 (sub32 addr d.bs_start) d.bs_stride) = c
    unfold MIPS_KSEG1_TO_PHYS
    rw [phys_mask_eq_mod, phys_to_kseg0_eq_add _ (by omega)]
    unfold MIPS_KSEG0_START
    omega
  · generalize add32 d.bs_vbase (shl32 (sub32 addr d.bs_start) d.bs_stride) = c
    unfold MIPS_KSEG1_TO_PHYS
    rw [phys_mask_eq_mod, phys_to_kseg0_eq_add _ (by omega)]
    unfold MIPS_KSEG1_START
    omega

/-- C6, at a concrete request: a cacheable mapping of byte `0x10` of `obio`. -/
theorem C6_compose_cacheable_kseg1_gives_kseg0_witness :
    mipsco_bus_space_compose_handle obio 0x10 0x10 BUS_SPACE_MAP_CACHEABLE =
      Outcome.ret 0 (some 0x98000010) :=
  (C6_compose_cacheable_kseg1_gives_kseg0 obio 0x10 0x10 BUS_SPACE_MAP_CACHEABLE
    (by decide) (by decide) (by decide)).1

/-- C7: for every descriptor, `addr` and `flags` containing `BUS_SPACE_MAP_CACHEABLE`
such that the candidate address `bs_vbase + ((addr - bs_start) << bs_stride)` is at or
above `MIPS_KSEG2_START`, `mipsco_bus_space_compose_handle` returns 0 and stores exactly
the candidate address, the same outcome as for any flags without
`BUS_SPACE_MAP_CACHEABLE`. -/
theorem C7_compose_cacheable_kseg2_unchanged (d : mipsco_bus_space) (addr size flags : Nat)
    (hflags : flags &&& BUS_SPACE_MAP_CACHEABLE ≠ 0)
    (hseg : MIPS_KSEG2_START ≤ add32 d.bs_vbase (shl32 (sub32 addr d.bs_start) d.bs_stride)) :
    mipsco_bus_space_compose_handle d addr size flags =
        Outcome.ret 0 (some (add32 d.bs_vbase (shl32 (sub32 addr d.bs_start) d.bs_stride))) ∧
    ∀ flags0 : Nat, flags0 &&& BUS_SPACE_MAP_CACHEABLE = 0 →
      mipsco_bus_space_compose_handle d addr size flags0 =
        mipsco_bus_space_compose_handle d addr size flags := by
  have hk : MIPS_KSEG1_START ≤ MIPS_KSEG2_START := by decide
  have hmain : mipsco_bus_space_compose_handle d addr size flags =
      Outcome.ret 0 (some (add32 d.bs_vbase (shl32 (sub32 addr d.bs_start) d.bs_stride))) := by
    unfold mipsco_bus_space_compose_handle
    rw [if_neg hflags, if_neg (by omega), if_neg (by omega)]
  refine ⟨hmain, ?_⟩
  intro flags0 h0
  rw [hmain]
  unfold mipsco_bus_space_compose_handle
  rw [if_pos h0]

/-- C7, at a concrete request: a cacheable mapping of bus address `0x2010` of `vme`. -/
theorem C7_compose_cacheable_kseg2_unchanged_witness :
    mipsco_bus_space_compose_handle vme 0x2010 0x10 BUS_SPACE_MAP_CACHEABLE =
      Outcome.ret 0 (some 0xc0100010) :=
  (C7_compose_cacheable_kseg2_unchanged vme 0x2010 0x10 BUS_SPACE_MAP_CACHEABLE
    (by decide) (by decide)).1

/-- C8: `mipsco_bus_space_compose_handle` takes the panic path exactly when
`BUS_SPACE_MAP_CACHEABLE` is requested and the candidate address
`bs_vbase + ((addr - bs_start) << bs_stride)` is below `MIPS_KSEG1_START`; in every
other case, and only then, it returns 0 having stored a handle. -/
theorem C8_compose_panics_iff_cacheable_below_kseg1 (d : mipsco_bus_space)
    (addr size flags : Nat) :
    (mipsco_bus_space_compose_handle d addr size flags = Outcome.panicked ↔
      (flags &&& BUS_SPACE_MAP_CACHEABLE ≠ 0 ∧
        add32 d.bs_vbase (shl32 (sub32 addr d.bs_start) d.bs_stride) < MIPS_KSEG1_START)) ∧
    ((∃ h : Nat, mipsco_bus_space_compose_handle d addr size flags = Outcome.ret 0 (some h)) ↔
      ¬ (flags &&& BUS_SPACE_MAP_CACHEABLE ≠ 0 ∧
        add32 d.bs_vbase (shl32 (sub32 addr d.bs_start) d.bs_stride) < MIPS_KSEG1_START)) := by
  unfold mipsco_bus_space_compose_handle
  generalize add32 d.bs_vbase (shl32 (sub32 addr d.bs_start) d.bs_stride) = c
  by_cases hf : flags &&& BUS_SPACE_MAP_CACHEABLE = 0
  · simp [hf]
  · by_cases h1 : c < MIPS_KSEG1_START
    · simp [hf, h1]
    · by_cases h2 : c < MIPS_KSEG2_START
      · simp [hf, h1, h2]
      · simp [hf, h1, h2]

/-- C9, as stated, fails: the handle `0x80100000` of `cachedbus` is below
`MIPS_KSEG1_START`, and `mipsco_bus_space_paddr` returns 0 with the physical address
`0x100000` instead of taking the panic path. -/
theorem C9_paddr_returns_in_kseg0 :
    0x80100000 < MIPS_KSEG1_START ∧
    mipsco_bus_space_paddr cachedbus 0x80100000 = Outcome.ret 0 (some 0x100000) ∧
    mipsco_bus_space_paddr cachedbus 0x80100000 ≠ Outcome.panicked := by
  decide

/-- C9, amended: `mipsco_bus_space_paddr` takes the panic path exactly for the handles
below `MIPS_KSEG0_START`, the start of the cached direct-mapped segment, and returns 0
with a physical address stored for every other handle. -/
theorem C9_paddr_panics_iff_below_kseg0 (d : mipsco_bus_space) (h : Nat) :
    (mipsco_bus_space_paddr d h = Outcome.panicked ↔ h < MIPS_KSEG0_START) ∧
    ((∃ pa : Nat, mipsco_bus_space_paddr d h = Outcome.ret 0 (some pa)) ↔
      MIPS_KSEG0_START ≤ h) := by
  unfold mipsco_bus_space_paddr
  by_cases h0 : h < MIPS_KSEG0_START
  · simp [h0]
  · by_cases h1 : h < MIPS_KSEG1_START
    · simp [h0, h1, Nat.le_of_not_lt h0]
    · by_cases h2 : h < MIPS_KSEG2_START
      · simp [h0, h1, h2, Nat.le_of_not_lt h0]
      · simp [h0, h1, h2, Nat.le_of_not_lt h0]

/-- C10: for every descriptor and every handle `h` at or above `MIPS_KSEG2_START`,
`mipsco_bus_space_paddr` returns 0 and yields `bs_pbase + (h - bs_vbase)`, in machine-word
arithmetic, from the descriptor's own bases alone. -/
theorem C10_paddr_kseg2_linear (d : mipsco_bus_space) (h : Nat)
    (hseg : MIPS_KSEG2_START ≤ h) :
    mipsco_bus_space_paddr d h = Outcome.ret 0 (some (add32 d.bs_pbase (sub32 h d.bs_vbase))) := by
  have h01 : MIPS_KSEG0_START ≤ MIPS_KSEG1_START := by decide
  have h12 : MIPS_KSEG1_START ≤ MIPS_KSEG2_START := by decide
  unfold mipsco_bus_space_paddr
  rw [if_neg (by omega), if_neg (by omega), if_neg (by omega)]

/-- C10, at a concrete handle: `0xc0100010` of `vme` has physical address `0x30000010`. -/
theorem C10_paddr_kseg2_linear_witness :
    mipsco_bus_space_paddr vme 0xc0100010 = Outcome.ret 0 (some 0x30000010) :=
  C10_paddr_kseg2_linear vme 0xc0100010 (by decide)

/-! ## `mipsco_bus_space_subregion`, stride configuration and initialisation -/

/-- The scaled offset of a sum is the sum of the scaled offsets, in the 32-bit word. -/
theorem shl32_add (a b s : Nat) : shl32 (a + b) s = (shl32 a s + shl32 b s) % WORD := by
  unfold shl32
  rw [Nat.shiftLeft_eq, Nat.shiftLeft_eq, Nat.shiftLeft_eq, Nat.add_mul]
  generalize a * 2 ^ s = x
  generalize b * 2 ^ s = y
  unfold WORD
  omega

/-- Scaling an offset sees only its value in the 32-bit word. -/
theorem shl32_mod (a s : Nat) : shl32 (a % WORD) s = shl32 a s := by
  unfold shl32
  rw [Nat.shiftLeft_eq, Nat.shiftLeft_eq]
  exact Nat.mod_mul_mod

/-- C11: subregion offsets are additive.  For every descriptor (its stride fixed),
every handle `h`, offsets `o1`, `o2` and sizes `s1`, `s2`, the call of
`mipsco_bus_space_subregion` with `(o1, s1)` returns 0 with a handle, the call with
`(o2, s2)` on that handle returns 0 with the same handle as the single call on `h`
with `(o1 + o2, s2)`, whether the caller forms `o1 + o2` exactly or in the 32-bit
`bus_size_t`. -/
theorem C11_subregion_offsets_additive (d : mipsco_bus_space) (h o1 o2 s1 s2 : Nat) :
    ∃ h1 h2 : Nat,
      mipsco_bus_space_subregion d h o1 s1 = Outcome.ret 0 (some h1) ∧
      mipsco_bus_space_subregion d h1 o2 s2 = Outcome.ret 0 (some h2) ∧
      mipsco_bus_space_subregion d h (o1 + o2) s2 = Outcome.ret 0 (some h2) ∧
      mipsco_bus_space_subregion d h (add32 o1 o2) s2 = Outcome.ret 0 (some h2) := by
  refine ⟨add32 h (shl32 o1 d.bs_stride),
    add32 (add32 h (shl32 o1 d.bs_stride)) (shl32 o2 d.bs_stride), rfl, rfl, ?_, ?_⟩
  · unfold mipsco_bus_space_subregion
    rw [shl32_add]
    generalize shl32 o1 d.bs_stride = x
    generalize shl32 o2 d.bs_stride = y
    unfold add32 WORD
    congr 2
    omega
  · unfold mipsco_bus_space_subregion
    have e : shl32 (add32 o1 o2) d.bs_stride = shl32 (o1 + o2) d.bs_stride := by
      unfold add32
      exact shl32_mod (o1 + o2) d.bs_stride
    rw [e, shl32_add]
    generalize shl32 o1 d.bs_stride = x
    generalize shl32 o2 d.bs_stride = y
    unfold add32 WORD
    congr 2
    omega

/-- C12: after `mipsco_bus_space_set_aligned_stride(bst, shift)`, `bs_stride` equals
`shift`; `bs_offset_1 = 3` and `bs_offset_2 = 2` if `shift = 2`, and both are 0 for
every other shift; `bs_offset_4` and `bs_offset_8` are 0 for every shift. -/
theorem C12_set_aligned_stride_fields (d : mipsco_bus_space) (shift : Nat) :
    (mipsco_bus_space_set_aligned_stride d shift).bs_stride = shift ∧
    (mipsco_bus_space_set_aligned_stride d shift).bs_offset_1 = (if shift = 2 then 3 else 0) ∧
    (mipsco_bus_space_set_aligned_stride d shift).bs_offset_2 = (if shift = 2 then 2 else 0) ∧
    (mipsco_bus_space_set_aligned_stride d shift).bs_offset_4 = 0 ∧
    (mipsco_bus_space_set_aligned_stride d shift).bs_offset_8 = 0 := by
  unfold mipsco_bus_space_set_aligned_stride
  by_cases h2 : shift = 2
  · simp [h2]
  · simp [h2]

/-- C13: for every prior descriptor state and all arguments, after
`mipsco_bus_space_init(bst, name, paddr, vaddr, start, size)` the descriptor has
`bs_name = name`, `bs_start = start`, `bs_size = size`, `bs_pbase = paddr`,
`bs_vbase = vaddr`, `bs_bswap = 0`, `bs_stride = 0` and all four byte-lane offsets 0,
whatever it held before: two initialisations with the same arguments give the same
descriptor. -/
theorem C13_init_overwrites_descriptor (d d0 : mipsco_bus_space) (name : String)
    (paddr vaddr start size : Nat) :
    mipsco_bus_space_init d name paddr vaddr start size =
      { bs_name := name, bs_start := start, bs_size := size, bs_pbase := paddr,
        bs_vbase := vaddr, bs_stride := 0, bs_bswap := 0, bs_offset_1 := 0,
        bs_offset_2 := 0, bs_offset_4 := 0, bs_offset_8 := 0 } ∧
    mipsco_bus_space_init d name paddr vaddr start size =
      mipsco_bus_space_init d0 name paddr vaddr start size := by
  constructor
  · simp [mipsco_bus_space_init, mipsco_bus_space_set_aligned_stride]
  · simp [mipsco_bus_space_init, mipsco_bus_space_set_aligned_stride]

/-! ## The sentinel of `mipsco_bus_space_mmap` and the frame of the operations -/

/-- C14: the out-of-range sentinel of `mipsco_bus_space_mmap` is different from every
successful result.  For every descriptor, `addr` and `off` for which the range check of
lines 177-178 passes, the returned page frame number is below `2 ^ 20` and so is not
`(paddr_t)-1`. -/
theorem C14_mmap_success_is_not_sentinel (d : mipsco_bus_space) (addr : Nat) (off : Int)
    (prot flags : Nat)
    (hpass : ¬ (addr < d.bs_start ∨
      wrap_s64 ((addr : Int) + off) ≥ ((add32 d.bs_start d.bs_size : Nat) : Int))) :
    mipsco_bus_space_mmap d addr off prot flags ≠ PADDR_MINUS_ONE ∧
    mipsco_bus_space_mmap d addr off prot flags < 1048576 := by
  unfold mipsco_bus_space_mmap
  rw [if_neg hpass]
  refine ⟨mips_btop_ne_minus_one _, ?_⟩
  rw [mips_btop_eq_div]
  have h := to_paddr_lt
    (wrap_s64 (((add32 d.bs_pbase (sub32 addr d.bs_start) : Nat) : Int) + off))
  omega

/-- C14, at a concrete request: offset `0x234` from bus address `0x100` of `obio`. -/
theorem C14_mmap_success_is_not_sentinel_witness :
    mipsco_bus_space_mmap obio 0x100 0x234 0 0 ≠ PADDR_MINUS_ONE ∧
    mipsco_bus_space_mmap obio 0x100 0x234 0 0 < 1048576 :=
  C14_mmap_success_is_not_sentinel obio 0x100 0x234 0 0 (by decide)

/-- C15: none of `map`, `unmap`, `compose_handle`, `dispose_handle`, `paddr`,
`subregion`, `mmap` or `set_aligned_stride` changes the name, start, size, physical
base, virtual base or byte-swap flag of the descriptor; every call other than
`set_aligned_stride` leaves the whole descriptor as it was; `dispose_handle` returns 0
and `unmap` returns nothing, both without effect. -/
theorem C15_operations_frame (d : mipsco_bus_space) (op : bus_op) :
    ((run_op d op).1.bs_name = d.bs_name ∧ (run_op d op).1.bs_start = d.bs_start ∧
      (run_op d op).1.bs_size = d.bs_size ∧ (run_op d op).1.bs_pbase = d.bs_pbase ∧
      (run_op d op).1.bs_vbase = d.bs_vbase ∧ (run_op d op).1.bs_bswap = d.bs_bswap) ∧
    ((∀ shift : Nat, op ≠ bus_op.set_aligned_stride shift) → (run_op d op).1 = d) ∧
    (∀ bsh size : Nat, run_op d (bus_op.dispose_handle bsh size) = (d, op_result.status 0)) ∧
    (∀ bsh size : Nat, run_op d (bus_op.unmap bsh size) = (d, op_result.void)) := by
  refine ⟨?_, ?_, ?_, ?_⟩
  · cases op with
    | set_aligned_stride shift =>
        by_cases h2 : shift = 2
        · simp [run_op, mipsco_bus_space_set_aligned_stride, h2]
        · simp [run_op, mipsco_bus_space_set_aligned_stride, h2]
    | _ => simp [run_op]
  · intro hne
    cases op with
    | set_aligned_stride shift => exact absurd rfl (hne shift)
    | _ => rfl
  · intro bsh size
    rfl
  · intro bsh size
    rfl

/-- C15, at a concrete call: mapping sixteen bytes of `obio` leaves `obio` as it was. -/
theorem C15_operations_frame_witness :
    (run_op obio (bus_op.map 0x10 0x10 0)).1 = obio :=
  (C15_operations_frame obio (bus_op.map 0x10 0x10 0)).2.1 (by intro shift; simp)

/-! ## Flags and caching -/

/-- Setting the `LINEAR` and `PREFETCHABLE` bits leaves the `CACHEABLE` bit as it is. -/
theorem linear_prefetchable_keep_cacheable (flags : Nat) :
    (flags ||| BUS_SPACE_MAP_LINEAR ||| BUS_SPACE_MAP_PREFETCHABLE) &&& BUS_SPACE_MAP_CACHEABLE
      = flags &&& BUS_SPACE_MAP_CACHEABLE := by
  unfold BUS_SPACE_MAP_LINEAR BUS_SPACE_MAP_PREFETCHABLE BUS_SPACE_MAP_CACHEABLE
  rw [Nat.and_one_is_mod, Nat.and_one_is_mod]
  rcases Nat.mod_two_eq_zero_or_one flags with h | h
  · have h1 : ¬ ((flags ||| 2 ||| 4) % 2 = 1) := by
      simp [Nat.or_mod_two_eq_one, h]
    omega
  · have h1 : (flags ||| 2 ||| 4) % 2 = 1 := by
      simp [Nat.or_mod_two_eq_one, h]
    omega

/-- C16: the outcome of `mipsco_bus_space_compose_handle` (panic or return, status and
stored handle) depends on `flags` only through the `BUS_SPACE_MAP_CACHEABLE` bit and
does not depend on `size`: two calls for the same descriptor and `addr` whose flags
agree on that bit have the same outcome, so setting `LINEAR` and `PREFETCHABLE` changes
nothing. -/
theorem C16_compose_depends_on_cacheable_only (d : mipsco_bus_space)
    (addr size1 size2 flags1 flags2 : Nat)
    (hagree : flags1 &&& BUS_SPACE_MAP_CACHEABLE = flags2 &&& BUS_SPACE_MAP_CACHEABLE) :
    mipsco_bus_space_compose_handle d addr size1 flags1 =
      mipsco_bus_space_compose_handle d addr size2 flags2 ∧
    mipsco_bus_space_compose_handle d addr size1
        (flags1 ||| BUS_SPACE_MAP_LINEAR ||| BUS_SPACE_MAP_PREFETCHABLE) =
      mipsco_bus_space_compose_handle d addr size2 flags2 := by
  constructor
  · unfold mipsco_bus_space_compose_handle
    rw [hagree]
  · unfold mipsco_bus_space_compose_handle
    rw [linear_prefetchable_keep_cacheable, hagree]

/-- C16, at concrete calls: `CACHEABLE` alone against all three flags, different sizes. -/
theorem C16_compose_depends_on_cacheable_only_witness :
    mipsco_bus_space_compose_handle obio 0x10 4 1 =
      mipsco_bus_space_compose_handle obio 0x10 8 7 :=
  (C16_compose_depends_on_cacheable_only obio 0x10 4 8 1 7 (by decide)).1

/-- C17: requesting caching does not change the physical address a handle denotes.  For
every descriptor and `addr` for which `mipsco_bus_space_compose_handle` with
`BUS_SPACE_MAP_CACHEABLE` does not panic, it and the call without `CACHEABLE` both
return 0 with a handle, and `mipsco_bus_space_paddr` returns 0 with the same physical
address on the two handles. -/
theorem C17_cacheable_keeps_physical_address (d : mipsco_bus_space)
    (addr size flagsC flagsN : Nat)
    (hC : flagsC &&& BUS_SPACE_MAP_CACHEABLE ≠ 0)
    (hN : flagsN &&& BUS_SPACE_MAP_CACHEABLE = 0)
    (hret : mipsco_bus_space_compose_handle d addr size flagsC ≠ Outcome.panicked) :
    ∃ hc hn pa : Nat,
      mipsco_bus_space_compose_handle d addr size flagsC = Outcome.ret 0 (some hc) ∧
      mipsco_bus_space_compose_handle d addr size flagsN = Outcome.ret 0 (some hn) ∧
      mipsco_bus_space_paddr d hc = Outcome.ret 0 (some pa) ∧
      mipsco_bus_space_paddr d hn = Outcome.ret 0 (some pa) := by
  unfold mipsco_bus_space_compose_handle at hret ⊢
  rw [if_neg hC] at hret
  rw [if_neg hC, if_pos hN]
  generalize add32 d.bs_vbase (shl32 (sub32 addr d.bs_start) d.bs_stride) = c at hret ⊢
  by_cases h1 : c < MIPS_KSEG1_START
  · rw [if_pos h1] at hret
    exact absurd rfl hret
  · by_cases h2 : c < MIPS_KSEG2_START
    · rw [if_neg h1, if_pos h2]
      refine ⟨_, c, c % 536870912, rfl, rfl, ?_, ?_⟩
      · unfold MIPS_KSEG1_TO_PHYS
        rw [phys_mask_eq_mod, phys_to_kseg0_eq_add _ (by omega)]
        unfold mipsco_bus_space_paddr MIPS_KSEG0_START MIPS_KSEG1_START
        rw [if_neg (by omega), if_pos (by omega)]
        unfold MIPS_KSEG0_TO_PHYS
        rw [phys_mask_eq_mod]
        congr 2
        omega
      · unfold mipsco_bus_space_paddr
        have h01 : MIPS_KSEG0_START ≤ MIPS_KSEG1_START := by decide
        rw [if_neg (by omega), if_neg h1, if_pos h2]
        unfold MIPS_KSEG1_TO_PHYS
        rw [phys_mask_eq_mod]
    · rw [if_neg h1, if_neg h2]
      have h01 : MIPS_KSEG0_START ≤ MIPS_KSEG1_START := by decide
      refine ⟨c, c, add32 d.bs_pbase (sub32 c d.bs_vbase), rfl, rfl, ?_, ?_⟩
      · unfold mipsco_bus_space_paddr
        rw [if_neg (by omega), if_neg h1, if_neg h2]
      · unfold mipsco_bus_space_paddr
        rw [if_neg (by omega), if_neg h1, if_neg h2]

/-- C17, at a concrete request: byte `0x10` of `obio`, cached and uncached. -/
theorem C17_cacheable_keeps_physical_address_witness :
    ∃ hc hn pa : Nat,
      mipsco_bus_space_compose_handle obio 0x10 4 1 = Outcome.ret 0 (some hc) ∧
      mipsco_bus_space_compose_handle obio 0x10 4 0 = Outcome.ret 0 (some hn) ∧
      mipsco_bus_space_paddr obio hc = Outcome.ret 0 (some pa) ∧
      mipsco_bus_space_paddr obio hn = Outcome.ret 0 (some pa) :=
  C17_cacheable_keeps_physical_address obio 0x10 4 1 0 (by decide) (by decide) (by decide)

/-! ## Linearity of the uncached mapping -/

/-- The 32-bit difference moves with a bus address: `(addr + offset) - start` is
`(addr - start) + offset` in the word. -/
theorem sub32_add_left (addr offset start : Nat) :
    sub32 (addr + offset) start = (sub32 addr start + offset) % WORD := by
  unfold sub32 WORD
  omega

/-- Composing the handle of `addr + offset` is stepping `offset` scaled units on from the
handle of `addr`, in the 32-bit word. -/
theorem candidate_add (d : mipsco_bus_space) (addr offset : Nat) :
    add32 d.bs_vbase (shl32 (sub32 (addr + offset) d.bs_start) d.bs_stride) =
      add32 (add32 d.bs_vbase (shl32 (sub32 addr d.bs_start) d.bs_stride))
        (shl32 offset d.bs_stride) := by
  rw [sub32_add_left, shl32_mod, shl32_add]
  generalize shl32 (sub32 addr d.bs_start) d.bs_stride = x
  generalize shl32 offset d.bs_stride = y
  unfold add32 WORD
  omega

/-- C18: subregion agrees with map.  For every descriptor, `addr`, `offset`, sizes and
`flags` without `BUS_SPACE_MAP_CACHEABLE`: whenever `mipsco_bus_space_map` returns 0
with a handle for `addr` and for `addr + offset`, `mipsco_bus_space_subregion` of the
first handle by `offset` returns 0 with the second handle; and both calls of map do
return 0 with a handle when the aperture does not wrap the machine word,
`[addr, addr + size1)` lies within it and so do `addr + offset` and the range requested
there. -/
theorem C18_subregion_agrees_with_map (d : mipsco_bus_space)
    (addr offset size1 size2 size3 flags : Nat)
    (hflags : flags &&& BUS_SPACE_MAP_CACHEABLE = 0) :
    (∀ h1 h3 : Nat,
      mipsco_bus_space_map d addr size1 flags = Outcome.ret 0 (some h1) →
      mipsco_bus_space_map d (addr + offset) size3 flags = Outcome.ret 0 (some h3) →
      mipsco_bus_space_subregion d h1 offset size2 = Outcome.ret 0 (some h3)) ∧
    (d.bs_start + d.bs_size < WORD →
      d.bs_start ≤ addr →
      addr + size1 ≤ d.bs_start + d.bs_size →
      addr + offset < d.bs_start + d.bs_size →
      addr + offset + size3 ≤ d.bs_start + d.bs_size →
      ∃ h1 h3 : Nat,
        mipsco_bus_space_map d addr size1 flags = Outcome.ret 0 (some h1) ∧
        mipsco_bus_space_subregion d h1 offset size2 = Outcome.ret 0 (some h3) ∧
        mipsco_bus_space_map d (addr + offset) size3 flags = Outcome.ret 0 (some h3)) := by
  have hEINVAL : EINVAL ≠ 0 := by decide
  constructor
  · intro h1 h3 hm1 hm3
    unfold mipsco_bus_space_map bus_space_compose_handle mipsco_bus_space_compose_handle
      at hm1 hm3
    simp only [hflags, if_true] at hm1 hm3
    split_ifs at hm1 with c1
    · injection hm1 with hst _
      exact absurd hst hEINVAL
    · split_ifs at hm3 with c3
      · injection hm3 with hst _
        exact absurd hst hEINVAL
      · injection hm1 with _ e1
        injection e1 with e1
        injection hm3 with _ e3
        injection e3 with e3
        unfold mipsco_bus_space_subregion
        rw [← e1, ← e3, candidate_add]
  · intro hnowrap hlo hend1 _ hend3
    have hcheck1 : ¬ (addr < d.bs_start ∨ add32 addr size1 > add32 d.bs_start d.bs_size) := by
      unfold add32 WORD
      unfold WORD at hnowrap
      omega
    have hcheck3 : ¬ (addr + offset < d.bs_start ∨
        add32 (addr + offset) size3 > add32 d.bs_start d.bs_size) := by
      unfold add32 WORD
      unfold WORD at hnowrap
      omega
    refine ⟨add32 d.bs_vbase (shl32 (sub32 addr d.bs_start) d.bs_stride),
      add32 (add32 d.bs_vbase (shl32 (sub32 addr d.bs_start) d.bs_stride))
        (shl32 offset d.bs_stride), ?_, rfl, ?_⟩
    · unfold mipsco_bus_space_map bus_space_compose_handle mipsco_bus_space_compose_handle
      rw [if_neg hcheck1]
      simp only [hflags, if_true]
    · unfold mipsco_bus_space_map bus_space_compose_handle mipsco_bus_space_compose_handle
      rw [if_neg hcheck3]
      simp only [hflags, if_true]
      rw [candidate_add]

/-- C18, at a concrete request: register `0x20` of `obio`, reached from the mapping of
`0x10` by offset `0x10` and mapped directly. -/
theorem C18_subregion_agrees_with_map_witness :
    ∃ h1 h3 : Nat,
      mipsco_bus_space_map obio 0x10 0x20 0 = Outcome.ret 0 (some h1) ∧
      mipsco_bus_space_subregion obio h1 0x10 4 = Outcome.ret 0 (some h3) ∧
      mipsco_bus_space_map obio (0x10 + 0x10) 4 0 = Outcome.ret 0 (some h3) :=
  (C18_subregion_agrees_with_map obio 0x10 0x10 0x20 4 4 0 (by decide)).2
    (by decide) (by decide) (by decide) (by decide) (by decide)

/-- C19: the code at the failing input.  On `obio` (aperture `[0, 0x1000)`, physical base
`0x18000000`, page frame `0x18000`) the request `addr = 0x10`, `off = -0x20` has the
target `addr + off = -0x10`, below `bs_start`; the test of lines 177-178 bounds only
`addr` from below, so the call does not return the sentinel but the page frame `0x17fff`
of the physical address `0x17fffff0`, below `bs_pbase`. -/
theorem C19_mmap_negative_offset_leaves_aperture :
    mipsco_bus_space_mmap obio 0x10 (-0x20) 0 0 = 0x17fff ∧
    mipsco_bus_space_mmap obio 0x10 (-0x20) 0 0 ≠ PADDR_MINUS_ONE ∧
    ¬ ((obio.bs_start : Int) ≤ ((0x10 : Nat) : Int) + (-0x20)) ∧
    to_paddr (((add32 obio.bs_pbase (sub32 0x10 obio.bs_start) : Nat) : Int) + (-0x20))
      = 0x17fffff0 ∧
    0x17fffff0 < obio.bs_pbase ∧
    mips_btop (obio.bs_pbase : Int) = 0x18000 := by
  decide

/-- Inside a window that does not overflow, the candidate handle of an in-aperture bus
address is the unbounded value `bs_vbase + (addr - bs_start) * 2 ^ bs_stride`. -/
theorem candidate_exact (d : mipsco_bus_space) (a : Nat)
    (hno : d.bs_vbase + (d.bs_size <<< d.bs_stride) < WORD)
    (hlo : d.bs_start ≤ a) (hhi : a < d.bs_start + d.bs_size) (hw : a < WORD) :
    add32 d.bs_vbase (shl32 (sub32 a d.bs_start) d.bs_stride) =
      d.bs_vbase + (a - d.bs_start) * 2 ^ d.bs_stride := by
  have hsub : sub32 a d.bs_start = a - d.bs_start := by
    unfold sub32
    unfold WORD at hw ⊢
    omega
  have hmul : (a - d.bs_start) * 2 ^ d.bs_stride ≤ d.bs_size * 2 ^ d.bs_stride :=
    Nat.mul_le_mul_right _ (by omega)
  rw [hsub]
  unfold add32 shl32
  rw [Nat.shiftLeft_eq] at hno ⊢
  generalize (a - d.bs_start) * 2 ^ d.bs_stride = x at hmul ⊢
  generalize d.bs_size * 2 ^ d.bs_stride = y at hmul hno
  unfold WORD at hno ⊢
  omega

/-- C20: the uncached mapping is strictly monotone, hence injective, on the aperture.
For every descriptor with stride below the word width 32 and with
`bs_vbase + (bs_size << bs_stride)`, formed without any wrap, inside the machine word,
and any two bus addresses `a < b` in `[bs_start, bs_start + bs_size)`, the calls of
`mipsco_bus_space_compose_handle` without `BUS_SPACE_MAP_CACHEABLE` return 0 with
handles `ha < hb`, both in `[bs_vbase, bs_vbase + (bs_size << bs_stride))`. -/
theorem C20_uncached_handles_strictly_monotone (d : mipsco_bus_space)
    (a b sizeA sizeB flagsA flagsB : Nat)
    (_hstride : d.bs_stride < 32)
    (hno : d.bs_vbase + (d.bs_size <<< d.bs_stride) < WORD)
    (hlo : d.bs_start ≤ a) (hab : a < b) (hhi : b < d.bs_start + d.bs_size)
    (hw : b < WORD)
    (hfA : flagsA &&& BUS_SPACE_MAP_CACHEABLE = 0)
    (hfB : flagsB &&& BUS_SPACE_MAP_CACHEABLE = 0) :
    ∃ ha hb : Nat,
      mipsco_bus_space_compose_handle d a sizeA flagsA = Outcome.ret 0 (some ha) ∧
      mipsco_bus_space_compose_handle d b sizeB flagsB = Outcome.ret 0 (some hb) ∧
      ha < hb ∧ ha ≠ hb ∧
      d.bs_vbase ≤ ha ∧ ha < d.bs_vbase + (d.bs_size <<< d.bs_stride) ∧
      d.bs_vbase ≤ hb ∧ hb < d.bs_vbase + (d.bs_size <<< d.bs_stride) := by
  have hpos : 0 < 2 ^ d.bs_stride := Nat.pos_pow_of_pos _ (by decide)
  have ea := candidate_exact d a hno hlo (by omega) (by omega)
  have eb := candidate_exact d b hno (by omega) hhi hw
  have hlt : (a - d.bs_start) * 2 ^ d.bs_stride < (b - d.bs_start) * 2 ^ d.bs_stride :=
    Nat.mul_lt_mul_of_pos_right (by omega) hpos
  have hle : (b - d.bs_start + 1) * 2 ^ d.bs_stride ≤ d.bs_size * 2 ^ d.bs_stride :=
    Nat.mul_le_mul_right _ (by omega)
  rw [Nat.add_mul, Nat.one_mul] at hle
  refine ⟨d.bs_vbase + (a - d.bs_start) * 2 ^ d.bs_stride,
    d.bs_vbase + (b - d.bs_start) * 2 ^ d.bs_stride, ?_, ?_, ?_⟩
  · unfold mipsco_bus_space_compose_handle
    simp only [hfA, if_true, ea]
  · unfold mipsco_bus_space_compose_handle
    simp only [hfB, if_true, eb]
  · rw [Nat.shiftLeft_eq]
    omega

/-- C20, at concrete requests: registers 1 and 2 of `obio4` have handles `0xb8000004` and
`0xb8000008`. -/
theorem C20_uncached_handles_strictly_monotone_witness :
    ∃ ha hb : Nat,
      mipsco_bus_space_compose_handle obio4 1 4 0 = Outcome.ret 0 (some ha) ∧
      mipsco_bus_space_compose_handle obio4 2 4 0 = Outcome.ret 0 (some hb) ∧
      ha < hb ∧ ha ≠ hb ∧
      obio4.bs_vbase ≤ ha ∧ ha < obio4.bs_vbase + (obio4.bs_size <<< obio4.bs_stride) ∧
      obio4.bs_vbase ≤ hb ∧ hb < obio4.bs_vbase + (obio4.bs_size <<< obio4.bs_stride) :=
  C20_uncached_handles_strictly_monotone obio4 1 2 4 4 0 0
    (by decide) (by decide) (by decide) (by decide) (by decide) (by decide)
    (by decide) (by decide)

end MipscoBusSpace
